import Mathlib

/-!
Shallow embedding of `src/scripts/create-768-dim-index.py`.

The script is a single linear pass: it reads the environment variable
`PINECONE_API_KEY`, constructs a `Pinecone` client (line 8, outside the
`try` block), and then, inside a `try` block (lines 13-37), lists the
existing indexes, creates the index `lens-tool-768` when absent (printing a
confirmation) or prints that it already exists, and finally lists all
indexes again, printing one line per index.  A single
`except Exception` handler (lines 39-40) prints `❌ Error: {e}`.

The remote service and the interpreter environment are modelled by an
oracle (`World`) giving the outcome of each external interaction: the
value of the environment variable, whether client construction raises,
the result of the first and the second `list_indexes` call, and whether
`create_index` raises.  Running the script on a `World` produces the list
of external actions performed, in order (`Act`), together with whether
the process finished normally or an exception escaped uncaught.

The `Act` vocabulary also contains actions the script never performs
(writing a file, deleting an index) so that frame properties ("the script
has no other effects", "a completed creation is not undone") are
non-vacuous statements about the produced trace.
-/

namespace Script

/-- An index as the script observes it: `index.name` and `index.dimension`
are the only attributes the script reads from the objects returned by
`list_indexes`. -/
structure IndexModel where
  name : String
  dimension : Nat
deriving DecidableEq, Repr

/-- The `spec` argument of `create_index`, mirroring the dict literal
`{"serverless": {"cloud": "aws", "region": "us-east-1"}}` at lines 25-30. -/
inductive IndexSpec where
  | serverless (cloud : String) (region : String)
deriving DecidableEq, Repr

/-- One external action performed by the script.  `readEnv`,
`constructClient`, `listIndexes`, `createIndex` and `print` are the actions
the source can perform; `writeFile` and `deleteIndex` are included in the
vocabulary only so that their absence from every trace is a meaningful
frame theorem. -/
inductive Act where
  | readEnv (var : String)
  | constructClient (apiKey : Option String)
  | listIndexes
  | createIndex (nm : String) (dimension : Nat) (metric : String) (spec : IndexSpec)
  | print (s : String)
  | writeFile (path : String) (contents : String)
  | deleteIndex (nm : String)
deriving DecidableEq, Repr

/-- How the process ends: normal termination, or a Python exception
escaping the script uncaught (its message recorded). -/
inductive RunResult where
  | completed
  | uncaught (msg : String)
deriving DecidableEq, Repr

/-- The oracle fixing one run: the environment and the behaviour of the
client library on each call the script can make.  `none` for
`constructExc` / `createExc` means the call returns normally; `some msg`
means it raises an exception whose `str` is `msg`.  `list1` and `list2`
are the outcomes of the first and second `list_indexes` call. -/
structure World where
  apiKey : Option String
  constructExc : Option String
  list1 : Except String (List IndexModel)
  createExc : Option String
  list2 : Except String (List IndexModel)

/-- The observable outcome of one run: the ordered trace of external
actions and how the process ended. -/
structure Run where
  trace : List Act
  result : RunResult
deriving DecidableEq, Repr

/-- Line 11: `index_name = "lens-tool-768"`. -/
def index_name : String := "lens-tool-768"

/-- Lines 34-37: print `"\nAvailable indexes:"`, call `list_indexes` a
second time and print `f"- {index.name}: {index.dimension} dimensions"`
for each returned index; an exception here reaches the handler at
lines 39-40. -/
def finalListing (w : World) (t : List Act) : Run :=
  let t1 := t ++ [Act.print "\nAvailable indexes:", Act.listIndexes]
  match w.list2 with
  | Except.error msg => ⟨t1 ++ [Act.print ("❌ Error: " ++ msg)], RunResult.completed⟩
  | Except.ok idxs =>
      ⟨t1 ++ idxs.map (fun i =>
          Act.print ("- " ++ i.name ++ ": " ++ toString i.dimension ++ " dimensions")),
        RunResult.completed⟩

/-- The whole script, lines 8-40.  Client construction (line 8) happens
before the `try` block, so an exception there escapes uncaught; every
exception raised at lines 13-37 is caught by the handler at lines 39-40,
which prints `f"❌ Error: {e}"`. -/
def runScript (w : World) : Run :=
  let t0 := [Act.readEnv "PINECONE_API_KEY", Act.constructClient w.apiKey]
  match w.constructExc with
  | some msg => ⟨t0, RunResult.uncaught msg⟩
  | none =>
    let t1 := t0 ++ [Act.listIndexes]
    match w.list1 with
    | Except.error msg => ⟨t1 ++ [Act.print ("❌ Error: " ++ msg)], RunResult.completed⟩
    | Except.ok idxs =>
      let existing_indexes := idxs.map (fun i => i.name)
      if index_name ∈ existing_indexes then
        finalListing w (t1 ++ [Act.print ("Index '" ++ index_name ++ "' already exists!")])
      else
        let t2 := t1 ++ [Act.createIndex index_name 768 "cosine"
          (IndexSpec.serverless "aws" "us-east-1")]
        match w.createExc with
        | some msg => ⟨t2 ++ [Act.print ("❌ Error: " ++ msg)], RunResult.completed⟩
        | none =>
          finalListing w (t2 ++
            [Act.print ("✅ Created new index '" ++ index_name ++ "' with 768 dimensions")])

/-- Is this action a call to `create_index`? -/
def isCreate : Act → Bool
  | Act.createIndex _ _ _ _ => true
  | _ => false

/-- Is this action a call to `list_indexes`? -/
def isList : Act → Bool
  | Act.listIndexes => true
  | _ => false

/-- Is this action a `print`? -/
def isPrint : Act → Bool
  | Act.print _ => true
  | _ => false

/-- Is this action a file write (never performed by the script)? -/
def isWrite : Act → Bool
  | Act.writeFile _ _ => true
  | _ => false

/-- Is this action an index deletion (never performed by the script)? -/
def isDelete : Act → Bool
  | Act.deleteIndex _ => true
  | _ => false

/-- External actions other than printing: environment read, client
construction and the two remote API calls. -/
def isExternalCall : Act → Bool
  | Act.readEnv _ => true
  | Act.constructClient _ => true
  | Act.listIndexes => true
  | Act.createIndex _ _ _ _ => true
  | _ => false

/-- Number of `create_index` calls in a trace. -/
def countCreate (t : List Act) : Nat := (t.filter isCreate).length

/-- Number of `list_indexes` calls in a trace. -/
def countList (t : List Act) : Nat := (t.filter isList).length

/-- The non-print external actions of a trace, in order. -/
def extCalls (t : List Act) : List Act := t.filter isExternalCall

/-- The `create_index` action with the exact literal arguments of
lines 21-31. -/
def createAction : Act :=
  Act.createIndex index_name 768 "cosine" (IndexSpec.serverless "aws" "us-east-1")

/-- The print line of lines 36-37 for one index. -/
def printLine (i : IndexModel) : Act :=
  Act.print ("- " ++ i.name ++ ": " ++ toString i.dimension ++ " dimensions")

/-- The first exception raised inside the `try` block of a run, if any,
following the control flow of lines 13-37: the first `list_indexes`, then
(when the index is absent) `create_index`, then the second
`list_indexes`. -/
def tryError (w : World) : Option String :=
  match w.list1 with
  | Except.error m => some m
  | Except.ok idxs =>
    if index_name ∈ idxs.map (fun i => i.name) then
      match w.list2 with
      | Except.error m => some m
      | Except.ok _ => none
    else
      match w.createExc with
      | some m => some m
      | none =>
        match w.list2 with
        | Except.error m => some m
        | Except.ok _ => none

/-- Length of the second listing's result, `0` when it raises. -/
def list2Len (w : World) : Nat :=
  match w.list2 with
  | Except.error _ => 0
  | Except.ok idxs => idxs.length

/-- A run in which the index is absent and `create_index` raises `boom`. -/
def wCreateFails : World := ⟨some "key", none, Except.ok [], some "boom", Except.ok []⟩

/-- A run in which the `Pinecone(...)` constructor at line 8 raises `boom`. -/
def wConstructFails : World := ⟨some "key", some "boom", Except.ok [], none, Except.ok []⟩

example :
    runScript ⟨some "k", none, Except.ok [], none, Except.ok [⟨"lens-tool-768", 768⟩]⟩ =
      ⟨[Act.readEnv "PINECONE_API_KEY", Act.constructClient (some "k"),
        Act.listIndexes, createAction,
        Act.print "✅ Created new index 'lens-tool-768' with 768 dimensions",
        Act.print "\nAvailable indexes:", Act.listIndexes,
        Act.print "- lens-tool-768: 768 dimensions"],
       RunResult.completed⟩ := by
  decide

example :
    runScript ⟨none, none, Except.ok [⟨"lens-tool-768", 768⟩], none, Except.ok []⟩ =
      ⟨[Act.readEnv "PINECONE_API_KEY", Act.constructClient none,
        Act.listIndexes, Act.print "Index 'lens-tool-768' already exists!",
        Act.print "\nAvailable indexes:", Act.listIndexes],
       RunResult.completed⟩ := by
  decide

/-! ### Branch characterization lemmas -/

lemma already_exists_string :
    ("Index '" ++ index_name ++ "' already exists!") =
      "Index 'lens-tool-768' already exists!" := by
  decide

lemma confirmation_string :
    ("✅ Created new index '" ++ index_name ++ "' with 768 dimensions") =
      "✅ Created new index 'lens-tool-768' with 768 dimensions" := by
  decide

lemma run_construct_exc (w : World) (msg : String) (h : w.constructExc = some msg) :
    runScript w = ⟨[Act.readEnv "PINECONE_API_KEY", Act.constructClient w.apiKey],
      RunResult.uncaught msg⟩ := by
  simp [runScript, h]

lemma run_list1_error (w : World) (msg : String)
    (h1 : w.constructExc = none) (h2 : w.list1 = Except.error msg) :
    runScript w = ⟨[Act.readEnv "PINECONE_API_KEY", Act.constructClient w.apiKey,
      Act.listIndexes, Act.print ("❌ Error: " ++ msg)], RunResult.completed⟩ := by
  simp [runScript, h1, h2]

lemma run_present (w : World) (l : List IndexModel)
    (h1 : w.constructExc = none) (h2 : w.list1 = Except.ok l)
    (h3 : index_name ∈ l.map (fun i => i.name)) :
    runScript w = finalListing w [Act.readEnv "PINECONE_API_KEY",
      Act.constructClient w.apiKey, Act.listIndexes,
      Act.print "Index 'lens-tool-768' already exists!"] := by
  simp [runScript, h1, h2, h3, already_exists_string]

lemma run_absent_create_exc (w : World) (l : List IndexModel) (msg : String)
    (h1 : w.constructExc = none) (h2 : w.list1 = Except.ok l)
    (h3 : index_name ∉ l.map (fun i => i.name)) (h4 : w.createExc = some msg) :
    runScript w = ⟨[Act.readEnv "PINECONE_API_KEY", Act.constructClient w.apiKey,
      Act.listIndexes, createAction, Act.print ("❌ Error: " ++ msg)],
      RunResult.completed⟩ := by
  simp [runScript, createAction, h1, h2, h3, h4]

lemma run_absent_create_ok (w : World) (l : List IndexModel)
    (h1 : w.constructExc = none) (h2 : w.list1 = Except.ok l)
    (h3 : index_name ∉ l.map (fun i => i.name)) (h4 : w.createExc = none) :
    runScript w = finalListing w [Act.readEnv "PINECONE_API_KEY",
      Act.constructClient w.apiKey, Act.listIndexes, createAction,
      Act.print "✅ Created new index 'lens-tool-768' with 768 dimensions"] := by
  simp [runScript, createAction, h1, h2, h3, h4, confirmation_string]

lemma finalListing_error (w : World) (t : List Act) (msg : String)
    (h : w.list2 = Except.error msg) :
    finalListing w t = ⟨t ++ [Act.print "\nAvailable indexes:", Act.listIndexes,
      Act.print ("❌ Error: " ++ msg)], RunResult.completed⟩ := by
  simp [finalListing, h]

lemma finalListing_ok (w : World) (t : List Act) (l : List IndexModel)
    (h : w.list2 = Except.ok l) :
    finalListing w t = ⟨t ++ [Act.print "\nAvailable indexes:", Act.listIndexes] ++
      l.map printLine, RunResult.completed⟩ := by
  simp [finalListing, printLine, h]

/-! ### Counting helpers -/

lemma countCreate_append (s t : List Act) :
    countCreate (s ++ t) = countCreate s + countCreate t := by
  simp [countCreate]

lemma countList_append (s t : List Act) :
    countList (s ++ t) = countList s + countList t := by
  simp [countList]

lemma countCreate_printLines (l : List IndexModel) :
    countCreate (l.map printLine) = 0 := by
  induction l with
  | nil => rfl
  | cons a l ih => simp [countCreate, printLine, List.filter_cons, isCreate]

lemma countList_printLines (l : List IndexModel) :
    countList (l.map printLine) = 0 := by
  induction l with
  | nil => rfl
  | cons a l ih => simp [countList, printLine, List.filter_cons, isList]

lemma extCalls_append (s t : List Act) : extCalls (s ++ t) = extCalls s ++ extCalls t := by
  simp [extCalls]

lemma extCalls_printLines (l : List IndexModel) : extCalls (l.map printLine) = [] := by
  induction l with
  | nil => rfl
  | cons a l ih => simp [extCalls, printLine, List.filter_cons, isExternalCall]

/-! ### Shared run facts -/

lemma result_completed (w : World) (h : w.constructExc = none) :
    (runScript w).result = RunResult.completed := by
  cases hl1 : w.list1 with
  | error m => rw [run_list1_error w m h hl1]
  | ok l =>
    by_cases hm : index_name ∈ l.map (fun i => i.name)
    · rw [run_present w l h hl1 hm]
      cases hl2 : w.list2 with
      | error m2 => rw [finalListing_error w _ m2 hl2]
      | ok l2 => rw [finalListing_ok w _ l2 hl2]
    · cases hcr : w.createExc with
      | some m2 => rw [run_absent_create_exc w l m2 h hl1 hm hcr]
      | none =>
        rw [run_absent_create_ok w l h hl1 hm hcr]
        cases hl2 : w.list2 with
        | error m2 => rw [finalListing_error w _ m2 hl2]
        | ok l2 => rw [finalListing_ok w _ l2 hl2]

lemma trace_ends_error (w : World) (msg : String)
    (h1 : w.constructExc = none) (h2 : tryError w = some msg) :
    ∃ pre, (runScript w).trace = pre ++ [Act.print ("❌ Error: " ++ msg)] := by
  cases hl1 : w.list1 with
  | error m =>
    rw [tryError, hl1] at h2
    injection h2 with h2
    subst h2
    rw [run_list1_error w m h1 hl1]
    exact ⟨[Act.readEnv "PINECONE_API_KEY", Act.constructClient w.apiKey,
      Act.listIndexes], rfl⟩
  | ok l =>
    by_cases hm : index_name ∈ l.map (fun i => i.name)
    · rw [tryError, hl1] at h2
      simp only [if_pos hm] at h2
      cases hl2 : w.list2 with
      | error m2 =>
        rw [hl2] at h2
        injection h2 with h2
        subst h2
        rw [run_present w l h1 hl1 hm, finalListing_error w _ m2 hl2]
        exact ⟨[Act.readEnv "PINECONE_API_KEY", Act.constructClient w.apiKey,
          Act.listIndexes, Act.print "Index 'lens-tool-768' already exists!",
          Act.print "\nAvailable indexes:", Act.listIndexes], rfl⟩
      | ok l2 => rw [hl2] at h2; cases h2
    · rw [tryError, hl1] at h2
      simp only [if_neg hm] at h2
      cases hcr : w.createExc with
      | some m2 =>
        rw [hcr] at h2
        injection h2 with h2
        subst h2
        rw [run_absent_create_exc w l m2 h1 hl1 hm hcr]
        exact ⟨[Act.readEnv "PINECONE_API_KEY", Act.constructClient w.apiKey,
          Act.listIndexes, createAction], rfl⟩
      | none =>
        rw [hcr] at h2
        cases hl2 : w.list2 with
        | error m2 =>
          rw [hl2] at h2
          injection h2 with h2
          subst h2
          rw [run_absent_create_ok w l h1 hl1 hm hcr, finalListing_error w _ m2 hl2]
          exact ⟨[Act.readEnv "PINECONE_API_KEY", Act.constructClient w.apiKey,
            Act.listIndexes, createAction,
            Act.print "✅ Created new index 'lens-tool-768' with 768 dimensions",
            Act.print "\nAvailable indexes:", Act.listIndexes], rfl⟩
        | ok l2 => rw [hl2] at h2; cases h2

/-! ### Claim theorems -/

/-- C1 (counterexample): in the run `wCreateFails` the first `list_indexes`
call returns no indexes, so `lens-tool-768` is absent and `create_index` is
called once; but because `create_index` raises, the creation confirmation
message is never printed (the handler prints the error instead), refuting
the claim that the script "calls create_index ... and then prints the
creation confirmation message" in every such run. -/
theorem create_without_confirmation_when_create_raises :
    wCreateFails.list1 = Except.ok ([] : List IndexModel) ∧
    countCreate (runScript wCreateFails).trace = 1 ∧
    ((runScript wCreateFails).trace.filter (fun a =>
      decide (a = Act.print "✅ Created new index 'lens-tool-768' with 768 dimensions"))).length
      = 0 :=
  ⟨rfl, by decide, by decide⟩

/-- C1 (amended): in every run where client construction succeeds and the
first `list_indexes` call returns a list whose names do not include
`lens-tool-768`, the script calls `create_index` exactly once, with name
`lens-tool-768`, dimension 768, metric `cosine` and a serverless spec with
cloud `aws` and region `us-east-1`; and provided that `create_index` returns
without raising, the creation confirmation message is printed immediately
after the call. -/
theorem create_called_once_when_absent (w : World) (l : List IndexModel)
    (h1 : w.constructExc = none) (h2 : w.list1 = Except.ok l)
    (h3 : index_name ∉ l.map (fun i => i.name)) :
    countCreate (runScript w).trace = 1 ∧
    ∃ pre suf, (runScript w).trace = pre ++ createAction :: suf ∧
      (w.createExc = none → suf.head? =
        some (Act.print "✅ Created new index 'lens-tool-768' with 768 dimensions")) := by
  cases hcr : w.createExc with
  | some m =>
    rw [run_absent_create_exc w l m h1 h2 h3 hcr]
    refine ⟨by simp [countCreate, isCreate, createAction], ?_⟩
    exact ⟨[Act.readEnv "PINECONE_API_KEY", Act.constructClient w.apiKey,
      Act.listIndexes], [Act.print ("❌ Error: " ++ m)], rfl,
      fun h => by simp [hcr] at h⟩
  | none =>
    rw [run_absent_create_ok w l h1 h2 h3 hcr]
    cases hl2 : w.list2 with
    | error m2 =>
      rw [finalListing_error w _ m2 hl2]
      refine ⟨by simp [countCreate, isCreate, createAction], ?_⟩
      exact ⟨[Act.readEnv "PINECONE_API_KEY", Act.constructClient w.apiKey,
        Act.listIndexes],
        [Act.print "✅ Created new index 'lens-tool-768' with 768 dimensions",
         Act.print "\nAvailable indexes:", Act.listIndexes,
         Act.print ("❌ Error: " ++ m2)], rfl, fun _ => rfl⟩
    | ok l2 =>
      rw [finalListing_ok w _ l2 hl2]
      constructor
      · rw [show ([Act.readEnv "PINECONE_API_KEY", Act.constructClient w.apiKey,
            Act.listIndexes, createAction,
            Act.print "✅ Created new index 'lens-tool-768' with 768 dimensions"] ++
            [Act.print "\nAvailable indexes:", Act.listIndexes] ++ l2.map printLine : List Act) =
            [Act.readEnv "PINECONE_API_KEY", Act.constructClient w.apiKey,
            Act.listIndexes, createAction,
            Act.print "✅ Created new index 'lens-tool-768' with 768 dimensions",
            Act.print "\nAvailable indexes:", Act.listIndexes] ++ l2.map printLine from rfl,
          countCreate_append, countCreate_printLines]
        simp [countCreate, isCreate, createAction]
      · exact ⟨[Act.readEnv "PINECONE_API_KEY", Act.constructClient w.apiKey,
          Act.listIndexes],
          Act.print "✅ Created new index 'lens-tool-768' with 768 dimensions" ::
            ([Act.print "\nAvailable indexes:", Act.listIndexes] ++ l2.map printLine),
          rfl, fun _ => rfl⟩

/-- C1 (witness): the amended theorem applied to the concrete run where the
key is set, nothing raises, and both listings return the empty list. -/
theorem create_called_once_when_absent_witness :
    countCreate (runScript ⟨some "key", none, Except.ok [], none, Except.ok []⟩).trace = 1 ∧
    ∃ pre suf,
      (runScript ⟨some "key", none, Except.ok [], none, Except.ok []⟩).trace =
        pre ++ createAction :: suf ∧
      ((⟨some "key", none, Except.ok [], none, Except.ok []⟩ : World).createExc = none →
        suf.head? =
          some (Act.print "✅ Created new index 'lens-tool-768' with 768 dimensions")) :=
  create_called_once_when_absent ⟨some "key", none, Except.ok [], none, Except.ok []⟩ []
    rfl rfl (by decide)

/-- C2: in every run where client construction succeeds and the first
`list_indexes` call returns a list whose names include `lens-tool-768`, the
script never calls `create_index` and prints that the index already
exists. -/
theorem skip_create_when_present (w : World) (l : List IndexModel)
    (h1 : w.constructExc = none) (h2 : w.list1 = Except.ok l)
    (h3 : index_name ∈ l.map (fun i => i.name)) :
    countCreate (runScript w).trace = 0 ∧
    Act.print "Index 'lens-tool-768' already exists!" ∈ (runScript w).trace := by
  rw [run_present w l h1 h2 h3]
  cases hl2 : w.list2 with
  | error m =>
    rw [finalListing_error w _ m hl2]
    exact ⟨by simp [countCreate, isCreate], by simp⟩
  | ok l2 =>
    rw [finalListing_ok w _ l2 hl2]
    constructor
    · rw [countCreate_append, countCreate_printLines]
      simp [countCreate, isCreate]
    · simp

/-- C2 (witness): the theorem applied to the concrete run where the first
listing already contains `lens-tool-768`. -/
theorem skip_create_when_present_witness :
    countCreate (runScript ⟨some "key", none, Except.ok [⟨"lens-tool-768", 768⟩],
      none, Except.ok []⟩).trace = 0 ∧
    Act.print "Index 'lens-tool-768' already exists!" ∈
      (runScript ⟨some "key", none, Except.ok [⟨"lens-tool-768", 768⟩],
        none, Except.ok []⟩).trace :=
  skip_create_when_present _ [⟨"lens-tool-768", 768⟩] rfl rfl (by decide)

/-- C3 (counterexample): in the run `wConstructFails` the `Pinecone(...)`
constructor at line 8 raises `boom`; line 8 sits before the `try` block, so
the exception escapes the script uncaught and no error message is printed,
refuting the claim that every exception, including one raised during client
construction, is caught by the generic handler. -/
theorem construct_exception_escapes_uncaught :
    (runScript wConstructFails).result = RunResult.uncaught "boom" ∧
    ((runScript wConstructFails).trace.filter isPrint).length = 0 := by
  decide

/-- C3 (amended): every exception raised inside the `try` block (lines
13-37: either `list_indexes` call, or `create_index`) is caught by the
single generic handler, which prints the error message, and the script then
terminates normally; but an exception raised during client construction
(line 8, before the `try` block) escapes the script uncaught. -/
theorem try_exceptions_caught_construct_escapes (w : World) :
    ((runScript w).result = RunResult.completed ↔ w.constructExc = none) ∧
    (∀ msg, w.constructExc = some msg →
      (runScript w).result = RunResult.uncaught msg) ∧
    (∀ msg, w.constructExc = none → tryError w = some msg →
      ∃ pre, (runScript w).trace = pre ++ [Act.print ("❌ Error: " ++ msg)]) := by
  refine ⟨⟨?_, result_completed w⟩, ?_, trace_ends_error w⟩
  · intro hres
    cases hc : w.constructExc with
    | none => rfl
    | some m => rw [run_construct_exc w m hc] at hres; simp at hres
  · intro msg hmsg
    rw [run_construct_exc w msg hmsg]

/-- C3 (witness): the amended theorem applied to the concrete run where the
first `list_indexes` call raises `down`: the handler's message ends the
trace. -/
theorem try_exceptions_caught_witness :
    ∃ pre, (runScript ⟨some "key", none, Except.error "down", none,
      Except.ok []⟩).trace = pre ++ [Act.print ("❌ Error: " ++ "down")] :=
  (try_exceptions_caught_construct_escapes _).2.2 "down" rfl (by decide)

/-- C4: in every run the non-print external actions, in order, form a
prefix of either `read key, construct client, list, list` (index present,
or a failure cut the run short) or `read key, construct client, list,
create, list` (index absent): the environment read comes first, then client
construction, then the existence check, then the conditional creation, then
the final enumeration, and no external action occurs out of this order;
moreover, whenever the second `list_indexes` call happened and returned a
list, the trace ends with that call followed by exactly one print per
returned index. -/
theorem external_actions_in_order (w : World) :
    (extCalls (runScript w).trace <+:
      [Act.readEnv "PINECONE_API_KEY", Act.constructClient w.apiKey,
        Act.listIndexes, Act.listIndexes] ∨
    extCalls (runScript w).trace <+:
      [Act.readEnv "PINECONE_API_KEY", Act.constructClient w.apiKey,
        Act.listIndexes, createAction, Act.listIndexes]) ∧
    (∀ l2, w.list2 = Except.ok l2 → countList (runScript w).trace = 2 →
      ∃ pre, (runScript w).trace = pre ++ Act.listIndexes :: l2.map printLine) := by
  refine ⟨?_, ?_⟩
  · cases hc : w.constructExc with
    | some m =>
      rw [run_construct_exc w m hc]
      refine Or.inl ⟨[Act.listIndexes, Act.listIndexes], ?_⟩
      simp [extCalls, isExternalCall]
    | none =>
      cases hl1 : w.list1 with
      | error m =>
        rw [run_list1_error w m hc hl1]
        refine Or.inl ⟨[Act.listIndexes], ?_⟩
        simp [extCalls, isExternalCall]
      | ok l =>
        by_cases hm : index_name ∈ l.map (fun i => i.name)
        · rw [run_present w l hc hl1 hm]
          cases hl2 : w.list2 with
          | error m2 =>
            rw [finalListing_error w _ m2 hl2]
            refine Or.inl ⟨[], ?_⟩
            simp [extCalls, isExternalCall]
          | ok l2 =>
            rw [finalListing_ok w _ l2 hl2]
            refine Or.inl ⟨[], ?_⟩
            rw [extCalls_append, extCalls_printLines]
            simp [extCalls, isExternalCall]
        · cases hcr : w.createExc with
          | some m2 =>
            rw [run_absent_create_exc w l m2 hc hl1 hm hcr]
            refine Or.inr ⟨[Act.listIndexes], ?_⟩
            simp [extCalls, isExternalCall, createAction]
          | none =>
            rw [run_absent_create_ok w l hc hl1 hm hcr]
            cases hl2 : w.list2 with
            | error m2 =>
              rw [finalListing_error w _ m2 hl2]
              refine Or.inr ⟨[], ?_⟩
              simp [extCalls, isExternalCall, createAction]
            | ok l2 =>
              rw [finalListing_ok w _ l2 hl2]
              refine Or.inr ⟨[], ?_⟩
              rw [extCalls_append, extCalls_printLines]
              simp [extCalls, isExternalCall, createAction]
  · intro l2 hl2 hcount
    cases hc : w.constructExc with
    | some m =>
      rw [run_construct_exc w m hc] at hcount
      simp [countList, isList] at hcount
    | none =>
      cases hl1 : w.list1 with
      | error m =>
        rw [run_list1_error w m hc hl1] at hcount
        simp [countList, isList] at hcount
      | ok l =>
        by_cases hm : index_name ∈ l.map (fun i => i.name)
        · rw [run_present w l hc hl1 hm, finalListing_ok w _ l2 hl2]
          exact ⟨[Act.readEnv "PINECONE_API_KEY", Act.constructClient w.apiKey,
            Act.listIndexes, Act.print "Index 'lens-tool-768' already exists!",
            Act.print "\nAvailable indexes:"], rfl⟩
        · cases hcr : w.createExc with
          | some m2 =>
            rw [run_absent_create_exc w l m2 hc hl1 hm hcr] at hcount
            simp [countList, isList, createAction] at hcount
          | none =>
            rw [run_absent_create_ok w l hc hl1 hm hcr, finalListing_ok w _ l2 hl2]
            exact ⟨[Act.readEnv "PINECONE_API_KEY", Act.constructClient w.apiKey,
              Act.listIndexes, createAction,
              Act.print "✅ Created new index 'lens-tool-768' with 768 dimensions",
              Act.print "\nAvailable indexes:"], rfl⟩

/-- C4 (witness): the ordering theorem applied to a concrete run in which
the index already exists and the second listing returns the empty list. -/
theorem external_actions_in_order_witness :
    ∃ pre, (runScript ⟨some "key", none, Except.ok [⟨"lens-tool-768", 768⟩], none,
        Except.ok []⟩).trace =
      pre ++ Act.listIndexes :: ([] : List IndexModel).map printLine :=
  (external_actions_in_order ⟨some "key", none, Except.ok [⟨"lens-tool-768", 768⟩],
    none, Except.ok []⟩).2 [] rfl (by decide)

/-- C5: in every run the script calls `create_index` at most once and
`list_indexes` at most twice; when the first `list_indexes` call raises, no
further remote call is made (one `list_indexes`, no `create_index`); and
when `create_index` raises after being called, the second `list_indexes`
never happens — there is no retry of any remote call. -/
theorem no_retries (w : World) :
    countCreate (runScript w).trace ≤ 1 ∧
    countList (runScript w).trace ≤ 2 ∧
    (∀ msg, w.constructExc = none → w.list1 = Except.error msg →
      countList (runScript w).trace = 1 ∧ countCreate (runScript w).trace = 0) ∧
    (∀ msg, w.createExc = some msg → countCreate (runScript w).trace = 1 →
      countList (runScript w).trace = 1) := by
  cases hc : w.constructExc with
  | some m =>
    rw [run_construct_exc w m hc]
    refine ⟨by simp [countCreate, isCreate], by simp [countList, isList], ?_, ?_⟩
    · intro msg h1 _
      simp at h1
    · intro msg _ hcount
      simp [countCreate, isCreate] at hcount
  | none =>
    cases hl1 : w.list1 with
    | error m =>
      rw [run_list1_error w m hc hl1]
      refine ⟨by simp [countCreate, isCreate], by simp [countList, isList], ?_, ?_⟩
      · intro msg _ _
        exact ⟨by simp [countList, isList], by simp [countCreate, isCreate]⟩
      · intro msg _ hcount
        simp [countCreate, isCreate] at hcount
    | ok l =>
      by_cases hm : index_name ∈ l.map (fun i => i.name)
      · rw [run_present w l hc hl1 hm]
        cases hl2 : w.list2 with
        | error m2 =>
          rw [finalListing_error w _ m2 hl2]
          refine ⟨by simp [countCreate, isCreate], by simp [countList, isList], ?_, ?_⟩
          · intro msg _ h1
            simp at h1
          · intro msg _ hcount
            simp [countCreate, isCreate] at hcount
        | ok l2 =>
          rw [finalListing_ok w _ l2 hl2]
          refine ⟨?_, ?_, ?_, ?_⟩
          · rw [countCreate_append, countCreate_printLines]
            simp [countCreate, isCreate]
          · rw [countList_append, countList_printLines]
            simp [countList, isList]
          · intro msg _ h1
            simp at h1
          · intro msg _ hcount
            rw [countCreate_append, countCreate_printLines] at hcount
            simp [countCreate, isCreate] at hcount
      · cases hcr : w.createExc with
        | some m2 =>
          rw [run_absent_create_exc w l m2 hc hl1 hm hcr]
          refine ⟨by simp [countCreate, isCreate, createAction],
            by simp [countList, isList, createAction], ?_, ?_⟩
          · intro msg _ h1
            simp at h1
          · intro msg _ _
            simp [countList, isList, createAction]
        | none =>
          rw [run_absent_create_ok w l hc hl1 hm hcr]
          cases hl2 : w.list2 with
          | error m2 =>
            rw [finalListing_error w _ m2 hl2]
            refine ⟨by simp [countCreate, isCreate, createAction],
              by simp [countList, isList, createAction], ?_, ?_⟩
            · intro msg _ h1
              simp at h1
            · intro msg hcr2 _
              simp at hcr2
          | ok l2 =>
            rw [finalListing_ok w _ l2 hl2]
            refine ⟨?_, ?_, ?_, ?_⟩
            · rw [countCreate_append, countCreate_printLines]
              simp [countCreate, isCreate, createAction]
            · rw [countList_append, countList_printLines]
              simp [countList, isList, createAction]
            · intro msg _ h1
              simp at h1
            · intro msg hcr2 _
              simp at hcr2

/-- C5 (witness): the no-retry theorem applied to the concrete run whose
first `list_indexes` call raises `down`: exactly one `list_indexes` call
and no `create_index` call. -/
theorem no_retries_witness :
    countList (runScript ⟨some "key", none, Except.error "down", none,
      Except.ok []⟩).trace = 1 ∧
    countCreate (runScript ⟨some "key", none, Except.error "down", none,
      Except.ok []⟩).trace = 0 :=
  (no_retries _).2.2.1 "down" rfl rfl

/-- C6: the run is a total function of the oracle and does a bounded amount
of work: the trace holds at most 8 actions plus one print per index
returned by the second `list_indexes` call — the only iteration in the
script is the `for` loop over that finite list. -/
theorem script_terminates_bounded (w : World) :
    (runScript w).trace.length ≤ 8 + list2Len w := by
  cases hc : w.constructExc with
  | some m =>
    rw [run_construct_exc w m hc]
    simp only [List.length_cons, List.length_nil]
    omega
  | none =>
    cases hl1 : w.list1 with
    | error m =>
      rw [run_list1_error w m hc hl1]
      simp only [List.length_cons, List.length_nil]
      omega
    | ok l =>
      by_cases hm : index_name ∈ l.map (fun i => i.name)
      · cases hl2 : w.list2 with
        | error m2 =>
          rw [run_present w l hc hl1 hm, finalListing_error w _ m2 hl2]
          simp [list2Len, hl2]
        | ok l2 =>
          rw [run_present w l hc hl1 hm, finalListing_ok w _ l2 hl2]
          simp [list2Len, hl2]
          omega
      · cases hcr : w.createExc with
        | some m2 =>
          rw [run_absent_create_exc w l m2 hc hl1 hm hcr]
          simp only [List.length_cons, List.length_nil]
          omega
        | none =>
          cases hl2 : w.list2 with
          | error m2 =>
            rw [run_absent_create_ok w l hc hl1 hm hcr, finalListing_error w _ m2 hl2]
            simp [list2Len, hl2]
          | ok l2 =>
            rw [run_absent_create_ok w l hc hl1 hm hcr, finalListing_ok w _ l2 hl2]
            simp [list2Len, hl2]
            omega

lemma trace_effects_classified (w : World) (a : Act)
    (h : a ∈ (runScript w).trace) :
    isExternalCall a = true ∨ isPrint a = true := by
  cases hc : w.constructExc with
  | some m =>
    rw [run_construct_exc w m hc] at h
    simp only [List.mem_cons, List.not_mem_nil, or_false] at h
    rcases h with rfl | rfl
    · exact Or.inl rfl
    · exact Or.inl rfl
  | none =>
    cases hl1 : w.list1 with
    | error m =>
      rw [run_list1_error w m hc hl1] at h
      simp only [List.mem_cons, List.not_mem_nil, or_false] at h
      rcases h with rfl | rfl | rfl | rfl
      · exact Or.inl rfl
      · exact Or.inl rfl
      · exact Or.inl rfl
      · exact Or.inr rfl
    | ok l =>
      by_cases hm : index_name ∈ l.map (fun i => i.name)
      · cases hl2 : w.list2 with
        | error m2 =>
          rw [run_present w l hc hl1 hm, finalListing_error w _ m2 hl2] at h
          simp only [List.cons_append, List.nil_append, List.mem_cons,
            List.not_mem_nil, or_false] at h
          rcases h with rfl | rfl | rfl | rfl | rfl | rfl | rfl
          · exact Or.inl rfl
          · exact Or.inl rfl
          · exact Or.inl rfl
          · exact Or.inr rfl
          · exact Or.inr rfl
          · exact Or.inl rfl
          · exact Or.inr rfl
        | ok l2 =>
          rw [run_present w l hc hl1 hm, finalListing_ok w _ l2 hl2] at h
          simp only [List.cons_append, List.nil_append, List.mem_cons] at h
          rcases h with rfl | rfl | rfl | rfl | rfl | rfl | h
          · exact Or.inl rfl
          · exact Or.inl rfl
          · exact Or.inl rfl
          · exact Or.inr rfl
          · exact Or.inr rfl
          · exact Or.inl rfl
          · obtain ⟨i, -, rfl⟩ := List.mem_map.mp h
            exact Or.inr rfl
      · cases hcr : w.createExc with
        | some m2 =>
          rw [run_absent_create_exc w l m2 hc hl1 hm hcr] at h
          simp only [List.mem_cons, List.not_mem_nil, or_false] at h
          rcases h with rfl | rfl | rfl | rfl | rfl
          · exact Or.inl rfl
          · exact Or.inl rfl
          · exact Or.inl rfl
          · exact Or.inl rfl
          · exact Or.inr rfl
        | none =>
          cases hl2 : w.list2 with
          | error m2 =>
            rw [run_absent_create_ok w l hc hl1 hm hcr,
              finalListing_error w _ m2 hl2] at h
            simp only [List.cons_append, List.nil_append, List.mem_cons,
              List.not_mem_nil, or_false] at h
            rcases h with rfl | rfl | rfl | rfl | rfl | rfl | rfl | rfl
            · exact Or.inl rfl
            · exact Or.inl rfl
            · exact Or.inl rfl
            · exact Or.inl rfl
            · exact Or.inr rfl
            · exact Or.inr rfl
            · exact Or.inl rfl
            · exact Or.inr rfl
          | ok l2 =>
            rw [run_absent_create_ok w l hc hl1 hm hcr,
              finalListing_ok w _ l2 hl2] at h
            simp only [List.cons_append, List.nil_append, List.mem_cons] at h
            rcases h with rfl | rfl | rfl | rfl | rfl | rfl | rfl | h
            · exact Or.inl rfl
            · exact Or.inl rfl
            · exact Or.inl rfl
            · exact Or.inl rfl
            · exact Or.inr rfl
            · exact Or.inr rfl
            · exact Or.inl rfl
            · obtain ⟨i, -, rfl⟩ := List.mem_map.mp h
              exact Or.inr rfl

lemma no_delete (w : World) : (runScript w).trace.filter isDelete = [] := by
  rw [List.filter_eq_nil_iff]
  intro a ha hdel
  rcases trace_effects_classified w a ha with hgood | hgood <;>
    cases a <;> simp [isDelete, isExternalCall, isPrint] at hdel hgood

/-- C7: every action in the trace of any run is an environment read, the
client construction, a remote API call, or a print: the script writes no
files, deletes nothing, and has no other kind of effect. -/
theorem effects_only_calls_and_prints (w : World) (a : Act)
    (h : a ∈ (runScript w).trace) :
    isExternalCall a = true ∨ isPrint a = true :=
  trace_effects_classified w a h

/-- C7 (witness): the theorem applied to the `list_indexes` action of a
concrete successful run. -/
theorem effects_only_calls_and_prints_witness :
    isExternalCall Act.listIndexes = true ∨ isPrint Act.listIndexes = true :=
  effects_only_calls_and_prints ⟨some "key", none, Except.ok [], none, Except.ok []⟩
    Act.listIndexes (by decide)

/-- C8: when the environment variable is unset (`os.environ.get` returns
`None`), the script still constructs the client with `api_key=None` and
proceeds exactly as it would with any key: apart from the key recorded in
the construction action, the trace and the result are identical to those of
the same run with any other key — the script itself never validates the
key. -/
theorem missing_key_client_still_constructed (c : Option String)
    (l1 : Except String (List IndexModel)) (cr : Option String)
    (l2 : Except String (List IndexModel)) (k : Option String) :
    (runScript ⟨none, c, l1, cr, l2⟩).trace =
      Act.readEnv "PINECONE_API_KEY" :: Act.constructClient none ::
        ((runScript ⟨k, c, l1, cr, l2⟩).trace.drop 2) ∧
    (runScript ⟨none, c, l1, cr, l2⟩).result =
      (runScript ⟨k, c, l1, cr, l2⟩).result := by
  cases c with
  | some m =>
    rw [run_construct_exc ⟨none, some m, l1, cr, l2⟩ m rfl,
      run_construct_exc ⟨k, some m, l1, cr, l2⟩ m rfl]
    exact ⟨rfl, rfl⟩
  | none =>
    cases l1 with
    | error m =>
      rw [run_list1_error ⟨none, none, Except.error m, cr, l2⟩ m rfl rfl,
        run_list1_error ⟨k, none, Except.error m, cr, l2⟩ m rfl rfl]
      exact ⟨rfl, rfl⟩
    | ok l =>
      by_cases hm : index_name ∈ l.map (fun i => i.name)
      · rw [run_present ⟨none, none, Except.ok l, cr, l2⟩ l rfl rfl hm,
          run_present ⟨k, none, Except.ok l, cr, l2⟩ l rfl rfl hm]
        cases l2 with
        | error m2 =>
          rw [finalListing_error ⟨none, none, Except.ok l, cr, Except.error m2⟩ _ m2 rfl,
            finalListing_error ⟨k, none, Except.ok l, cr, Except.error m2⟩ _ m2 rfl]
          exact ⟨rfl, rfl⟩
        | ok ll =>
          rw [finalListing_ok ⟨none, none, Except.ok l, cr, Except.ok ll⟩ _ ll rfl,
            finalListing_ok ⟨k, none, Except.ok l, cr, Except.ok ll⟩ _ ll rfl]
          exact ⟨rfl, rfl⟩
      · cases cr with
        | some m2 =>
          rw [run_absent_create_exc ⟨none, none, Except.ok l, some m2, l2⟩ l m2
              rfl rfl hm rfl,
            run_absent_create_exc ⟨k, none, Except.ok l, some m2, l2⟩ l m2
              rfl rfl hm rfl]
          exact ⟨rfl, rfl⟩
        | none =>
          rw [run_absent_create_ok ⟨none, none, Except.ok l, none, l2⟩ l rfl rfl hm rfl,
            run_absent_create_ok ⟨k, none, Except.ok l, none, l2⟩ l rfl rfl hm rfl]
          cases l2 with
          | error m2 =>
            rw [finalListing_error ⟨none, none, Except.ok l, none, Except.error m2⟩ _ m2 rfl,
              finalListing_error ⟨k, none, Except.ok l, none, Except.error m2⟩ _ m2 rfl]
            exact ⟨rfl, rfl⟩
          | ok ll =>
            rw [finalListing_ok ⟨none, none, Except.ok l, none, Except.ok ll⟩ _ ll rfl,
              finalListing_ok ⟨k, none, Except.ok l, none, Except.ok ll⟩ _ ll rfl]
            exact ⟨rfl, rfl⟩

/-- C9: in every run that reaches the final listing, `list_indexes` is
called exactly twice (the existence check and the final enumeration are
separate calls), and the trace ends with the second `list_indexes` call
followed by one print line `- {name}: {dimension} dimensions` per returned
index, in the order returned. -/
theorem second_listing_prints_each_index (w : World) (l1 l2 : List IndexModel)
    (h1 : w.constructExc = none) (h2 : w.list1 = Except.ok l1)
    (h3 : index_name ∈ l1.map (fun i => i.name) ∨ w.createExc = none)
    (h4 : w.list2 = Except.ok l2) :
    countList (runScript w).trace = 2 ∧
    ∃ pre, (runScript w).trace = pre ++ Act.listIndexes :: l2.map printLine := by
  by_cases hm : index_name ∈ l1.map (fun i => i.name)
  · rw [run_present w l1 h1 h2 hm, finalListing_ok w _ l2 h4]
    constructor
    · rw [countList_append, countList_printLines]
      simp [countList, isList]
    · exact ⟨[Act.readEnv "PINECONE_API_KEY", Act.constructClient w.apiKey,
        Act.listIndexes, Act.print "Index 'lens-tool-768' already exists!",
        Act.print "\nAvailable indexes:"], rfl⟩
  · rcases h3 with hm2 | hcr
    · exact absurd hm2 hm
    · rw [run_absent_create_ok w l1 h1 h2 hm hcr, finalListing_ok w _ l2 h4]
      constructor
      · rw [countList_append, countList_printLines]
        simp [countList, isList, createAction]
      · exact ⟨[Act.readEnv "PINECONE_API_KEY", Act.constructClient w.apiKey,
          Act.listIndexes, createAction,
          Act.print "✅ Created new index 'lens-tool-768' with 768 dimensions",
          Act.print "\nAvailable indexes:"], rfl⟩

/-- C9 (witness): the theorem applied to the concrete run whose second
listing returns exactly the newly created index. -/
theorem second_listing_prints_each_index_witness :
    countList (runScript ⟨some "key", none, Except.ok [], none,
      Except.ok [⟨"lens-tool-768", 768⟩]⟩).trace = 2 ∧
    ∃ pre, (runScript ⟨some "key", none, Except.ok [], none,
        Except.ok [⟨"lens-tool-768", 768⟩]⟩).trace =
      pre ++ Act.listIndexes :: ([⟨"lens-tool-768", 768⟩] : List IndexModel).map printLine :=
  second_listing_prints_each_index _ [] [⟨"lens-tool-768", 768⟩]
    rfl rfl (Or.inr rfl) rfl

/-- C10: whenever an exception is raised inside the `try` block, the script
prints the error message prefixed with `❌ Error: ` as the final action of
the trace and terminates normally (result `completed`, nothing re-raised);
the trace contains no deletion, and a `create_index` performed before the
exception is still present in the trace — nothing is undone. -/
theorem handler_prints_error_and_completes (w : World) (msg : String)
    (h1 : w.constructExc = none) (h2 : tryError w = some msg) :
    (runScript w).result = RunResult.completed ∧
    (∃ pre, (runScript w).trace = pre ++ [Act.print ("❌ Error: " ++ msg)]) ∧
    ((runScript w).trace.filter isDelete).length = 0 ∧
    (∀ l, w.list1 = Except.ok l → index_name ∉ l.map (fun i => i.name) →
      w.createExc = none → createAction ∈ (runScript w).trace) := by
  refine ⟨result_completed w h1, trace_ends_error w msg h1 h2, ?_, ?_⟩
  · rw [no_delete w]
    rfl
  · intro l hl1 hm hcr
    cases hl2 : w.list2 with
    | error m2 =>
      rw [run_absent_create_ok w l h1 hl1 hm hcr, finalListing_error w _ m2 hl2]
      simp
    | ok l2 =>
      rw [run_absent_create_ok w l h1 hl1 hm hcr, finalListing_ok w _ l2 hl2]
      simp

/-- C10 (witness): the theorem applied to the concrete run where the index
is created and the second `list_indexes` call then raises `net down`: the
run completes, the trace ends with the handler's message, and the creation
action is still in the trace. -/
theorem handler_prints_error_and_completes_witness :
    (runScript ⟨some "key", none, Except.ok [], none,
      Except.error "net down"⟩).result = RunResult.completed ∧
    createAction ∈ (runScript ⟨some "key", none, Except.ok [], none,
      Except.error "net down"⟩).trace :=
  ⟨(handler_prints_error_and_completes ⟨some "key", none, Except.ok [], none,
      Except.error "net down"⟩ "net down" rfl (by decide)).1,
   (handler_prints_error_and_completes ⟨some "key", none, Except.ok [], none,
      Except.error "net down"⟩ "net down" rfl (by decide)).2.2.2 []
      rfl (by decide) rfl⟩

end Script
